import Mathlib

/-!
Shallow embedding of the Rotten Tomatoes movie-analysis program
(`module02/movie/rating.py`, `module02/person/person.py`,
`module02/movie/movie.py`, `eval_02.py`).

Python strings are modelled as `List Char`; the string operations used by
the source (`str.strip`, `str.lower`, `str.upper`, `str.split`, `int(...)`,
`date.fromisoformat`) are given explicit executable definitions below.
Python exceptions are modelled with `Except`; the mutable class-level caches
of the two Flyweight registries are modelled by explicit state passing.
-/

set_option autoImplicit false

abbrev Str := List Char

namespace Py

/-- Python `str.strip()`: drop leading and trailing whitespace. -/
def strip (l : Str) : Str :=
  ((l.dropWhile Char.isWhitespace).reverse.dropWhile Char.isWhitespace).reverse

/-- Python `str.lower()` (ASCII case mapping suffices for this dataset). -/
def lower (l : Str) : Str := l.map Char.toLower

/-- Python `str.upper()` (ASCII case mapping suffices for this dataset). -/
def upper (l : Str) : Str := l.map Char.toUpper

/-- Helper for `split`: accumulate the current field, cut at each separator. -/
def splitAux (sep : Char) : Str → Str → List Str
  | [], acc => [acc.reverse]
  | c :: rest, acc =>
    if c = sep then acc.reverse :: splitAux sep rest [] else splitAux sep rest (c :: acc)

/-- Python `str.split(sep)` for a one-character separator. -/
def split (sep : Char) (s : Str) : List Str := splitAux sep s []

/-- Numeric value of a digit string (used only under an all-digits guard). -/
def digitsVal (l : Str) : Nat := l.foldl (fun acc c => 10 * acc + (c.toNat - 48)) 0

/-- Parse a non-empty all-digit string; `none` otherwise. -/
def natOfDigits (l : Str) : Option Nat :=
  if l ≠ [] ∧ l.all Char.isDigit then some (digitsVal l) else none

/-- Python `int(s)` on an already-stripped string: optional sign, then digits. -/
def intOfChars (l : Str) : Option Int :=
  match l with
  | '-' :: rest => (natOfDigits rest).map (fun n => -(n : Int))
  | '+' :: rest => (natOfDigits rest).map (fun n => (n : Int))
  | _ => (natOfDigits l).map (fun n => (n : Int))

end Py

/-- First value stored under `key` in an association list (Python dict lookup;
insertion order is preserved by appending new entries at the end). -/
def findKey {α : Type} (key : Str) : List (Str × α) → Option α
  | [] => none
  | (k, v) :: rest => if k = key then some v else findKey key rest

/-! ## rating.py -/

/-- `MovieRating`: frozen dataclass with a code and a description. -/
structure MovieRating where
  code : Str
  description : Str
deriving DecidableEq

/-- `MovieRating._order`: rating codes from lowest (NR) to highest (NC17). -/
def ratingOrder : List Str :=
  ["NR".data, "G".data, "PG".data, "PG-13".data, "R".data, "NC17".data]

def nrRating : MovieRating := ⟨"NR".data, "Not rated".data⟩
def gRating : MovieRating := ⟨"G".data, "All ages".data⟩
def pgRating : MovieRating := ⟨"PG".data, "Parental guidance advised".data⟩
def pg13Rating : MovieRating := ⟨"PG-13".data, "Parental guidance strongly advised".data⟩
def rRating : MovieRating := ⟨"R".data, "Under 17, parental guidance advised".data⟩
def nc17Rating : MovieRating := ⟨"NC17".data, "For adults only".data⟩

/-- `MovieRating._instances` after `_create_predefined_ratings()` has run at
module import: the six predefined ratings keyed by their codes, in the
insertion order of the `descriptions` dict. -/
def ratingInstances : List (Str × MovieRating) :=
  [("NR".data, nrRating), ("G".data, gRating), ("PG".data, pgRating),
   ("PG-13".data, pg13Rating), ("R".data, rRating), ("NC17".data, nc17Rating)]

/-- `get_rating(code)`: strip and uppercase the code, then look it up in the
cache; `ValueError` (modelled as `.error`) if it is not one of the six. -/
def get_rating (code : Str) : Except Str MovieRating :=
  let normalized := Py.upper (Py.strip code)
  match findKey normalized ratingInstances with
  | some r => Except.ok r
  | none => Except.error ("Unknown rating code: ".data ++ normalized)

/-- Index of a string in a list of strings (Python `list.index`, `none` for
the raising case). -/
def listIndex (x : Str) : List Str → Option Nat
  | [] => none
  | y :: ys => if y = x then some 0 else (listIndex x ys).map (fun i => i + 1)

/-- `MovieRating._sort_index()`: position of the uppercased code in `_order`
(`none` models the raising case, never reached for cached ratings). -/
def sortIndex (r : MovieRating) : Option Nat := listIndex (Py.upper r.code) ratingOrder

/-- `MovieRating.__lt__`: compare sort indices. The source raises on an
unknown code; that case is modelled as `false` and is never reached for the
six cached ratings. -/
def ratingLt (a b : MovieRating) : Bool :=
  match sortIndex a, sortIndex b with
  | some i, some j => decide (i < j)
  | _, _ => false

/-! ## person.py -/

/-- `Person`: frozen dataclass holding the full name. -/
structure Person where
  fullname : Str
deriving DecidableEq

/-- `Person._instances`: lowercase name to Person, in insertion order. -/
abbrev PersonReg := List (Str × Person)

/-- `get_person(fullname)`: strip, reject empty, look up by lowercased key,
else create and store a new `Person` carrying the stripped original-case
name. Returns the person together with the updated registry. -/
def get_person (fullname : Str) (reg : PersonReg) : Except Str (Person × PersonReg) :=
  let cleaned := Py.strip fullname
  if cleaned = [] then Except.error "fullname can not be empty".data
  else
    let key := Py.lower cleaned
    match findKey key reg with
    | some p => Except.ok (p, reg)
    | none => Except.ok (⟨cleaned⟩, reg ++ [(key, ⟨cleaned⟩)])

/-- `get_person_count()`: number of cached persons. -/
def get_person_count (reg : PersonReg) : Nat := reg.length

/-! ## movie.py: the record model -/

/-- The seven `Movie` subclasses, as a closed tag. -/
inductive Genre where
  | actionAdventure
  | comedy
  | drama
  | horror
  | romance
  | scienceFictionFantasy
  | western
deriving DecidableEq

/-- ISO calendar date as produced by `date.fromisoformat`. -/
structure PyDate where
  year : Nat
  month : Nat
  day : Nat
deriving DecidableEq

def isLeap (y : Nat) : Bool := ((y % 4 == 0) && !(y % 100 == 0)) || (y % 400 == 0)

def daysInMonth (y m : Nat) : Nat :=
  if m = 2 then (if isLeap y then 29 else 28)
  else if m = 4 ∨ m = 6 ∨ m = 9 ∨ m = 11 then 30 else 31

/-- `Movie` dataclass: the fields shared by all genre subclasses, plus the
genre tag standing for the concrete subclass. -/
structure Movie where
  rt_link : Str
  title : Str
  rating : MovieRating
  genre : Genre
  directors : List Person := []
  release_date : Option PyDate := none
  streaming_date : Option PyDate := none
  length : Int := 0
  company : Option Str := none
  score : Option Int := none
  count : Option Int := none
deriving DecidableEq

/-- `Movie.__init__` followed by `Movie.__post_init__`: reject an empty
`rt_link` or `title` and a `None` rating; coerce a negative length to 0. -/
def makeMovie (rt_link title : Str) (rating : Option MovieRating) (genre : Genre)
    (directors : List Person) (release_date streaming_date : Option PyDate)
    (length : Int) (company : Option Str) (score count : Option Int) : Except Str Movie :=
  if rt_link = [] then Except.error "rt_link must not be empty".data
  else if title = [] then Except.error "title must not be empty".data
  else
    match rating with
    | none => Except.error "rating must not be None".data
    | some r =>
      Except.ok
        { rt_link := rt_link, title := title, rating := r, genre := genre,
          directors := directors, release_date := release_date,
          streaming_date := streaming_date,
          length := if length < 0 then 0 else length,
          company := company, score := score, count := count }

/-- `Movie.relevant_score()`: `(False, 0)` when score or count is absent or
fewer than 100 people voted, else `(True, score)`. -/
def relevant_score (m : Movie) : Bool × Int :=
  match m.score, m.count with
  | some s, some c => if c < 100 then (false, 0) else (true, s)
  | some _, none => (false, 0)
  | none, _ => (false, 0)

/-- `Horror.is_scary()`: `self.rating > get_rating("PG")`, i.e. the reflected
`MovieRating.__lt__` with the cached PG rating on the left. -/
def is_scary (m : Movie) : Bool :=
  match get_rating "PG".data with
  | Except.ok pg => ratingLt pg m.rating
  | Except.error _ => false

/-! ## movie.py: parsing helpers and the factory -/

/-- `_parse_int`: strip, empty gives `None`, then `int(...)` with failures
mapped to `None`. -/
def parse_int (value : Str) : Option Int :=
  let v := Py.strip value
  if v = [] then none else Py.intOfChars v

/-- `_parse_date`: strip, empty gives `None`, then `date.fromisoformat` on
`YYYY-MM-DD` with failures mapped to `None`. -/
def parse_date (value : Str) : Option PyDate :=
  let v := Py.strip value
  if v = [] then none
  else
    match Py.split '-' v with
    | [ys, ms, ds] =>
      if ys.length = 4 ∧ ms.length = 2 ∧ ds.length = 2 then
        match Py.natOfDigits ys, Py.natOfDigits ms, Py.natOfDigits ds with
        | some y, some m, some d =>
          if 1 ≤ y ∧ 1 ≤ m ∧ m ≤ 12 ∧ 1 ≤ d ∧ d ≤ daysInMonth y m then
            some ⟨y, m, d⟩
          else none
        | _, _, _ => none
      else none
    | _ => none

/-- The `get_person` calls of `_parse_directors`, in list order, threading
the registry; a `ValueError` mid-list keeps the additions made so far. -/
def internDirectors : List Str → PersonReg → Except Str (List Person) × PersonReg
  | [], reg => (Except.ok [], reg)
  | name :: rest, reg =>
    match get_person name reg with
    | Except.error e => (Except.error e, reg)
    | Except.ok (p, reg1) =>
      match internDirectors rest reg1 with
      | (Except.ok ps, reg2) => (Except.ok (p :: ps), reg2)
      | (Except.error e, reg2) => (Except.error e, reg2)

/-- `_parse_directors`: strip, empty gives `[]`, else split on commas, strip
each part, drop empty parts, resolve each name through `get_person`. -/
def parse_directors (value : Str) (reg : PersonReg) : Except Str (List Person) × PersonReg :=
  let text := Py.strip value
  if text = [] then (Except.ok [], reg)
  else internDirectors (((Py.split ',' text).map Py.strip).filter (fun n => !n.isEmpty)) reg

/-- `_GENRE_TO_CLASS`: CSV genre text to Movie subclass. -/
def genreTable : List (Str × Genre) :=
  [("ACTION & ADVENTURE".data, Genre.actionAdventure),
   ("COMEDY".data, Genre.comedy),
   ("DRAMA".data, Genre.drama),
   ("HORROR".data, Genre.horror),
   ("ROMANCE".data, Genre.romance),
   ("SCIENCE FICTION & FANTASY".data, Genre.scienceFictionFantasy),
   ("WESTERN".data, Genre.western)]

/-- One CSV row as consumed by `create_movie` (`csv.DictReader` mapping;
`none` stands for a missing column). -/
structure Row where
  rotten_tomatoes_link : Option Str := none
  movie_title : Option Str := none
  content_rating : Option Str := none
  genre : Option Str := none
  directors : Option Str := none
  original_release_date : Option Str := none
  streaming_release_date : Option Str := none
  runtime : Option Str := none
  production_company : Option Str := none
  audience_rating : Option Str := none
  audience_count : Option Str := none

/-- `create_movie(info)`: validate the four required fields, resolve the
rating, intern the directors, parse the optional fields, map the genre and
construct the record. The person registry is threaded and keeps whatever
was interned before a failure (Python mutates the class-level cache). -/
def create_movie (info : Row) (reg : PersonReg) : Except Str Movie × PersonReg :=
  let rt_link := Py.strip (info.rotten_tomatoes_link.getD [])
  let title := Py.strip (info.movie_title.getD [])
  let rating_code := Py.strip (info.content_rating.getD [])
  let genre_text := Py.strip (info.genre.getD [])
  if rt_link = [] then (Except.error "missing rotten_tomatoes_link".data, reg)
  else if title = [] then (Except.error "missing movie_title".data, reg)
  else if rating_code = [] then (Except.error "missing content_rating".data, reg)
  else if genre_text = [] then (Except.error "missing genre".data, reg)
  else
    match get_rating rating_code with
    | Except.error e => (Except.error e, reg)
    | Except.ok rating =>
      match parse_directors (info.directors.getD []) reg with
      | (Except.error e, reg1) => (Except.error e, reg1)
      | (Except.ok directors, reg1) =>
        let release_date := parse_date (info.original_release_date.getD [])
        let streaming_date := parse_date (info.streaming_release_date.getD [])
        let length := (parse_int (info.runtime.getD [])).getD 0
        let company0 := Py.strip (info.production_company.getD [])
        let company := if company0 = [] then none else some company0
        let score := parse_int (info.audience_rating.getD [])
        let count := parse_int (info.audience_count.getD [])
        match findKey (Py.upper genre_text) genreTable with
        | none => (Except.error ("unknown genre: ".data ++ genre_text), reg1)
        | some g =>
          match makeMovie rt_link title (some rating) g directors release_date
              streaming_date length company score count with
          | Except.ok m => (Except.ok m, reg1)
          | Except.error e => (Except.error e, reg1)

/-! ## eval_02.py: the queries the claims are about -/

/-- Loop body of `menu_print_highest_score_movies`: skip irrelevant scores,
restart the tie list on a strictly higher score, append on a tie. -/
def highestStep (acc : Int × List Movie) (m : Movie) : Int × List Movie :=
  let r := relevant_score m
  if r.1 = false then acc
  else if acc.1 < r.2 then (r.2, [m])
  else if r.2 = acc.1 then (acc.1, acc.2 ++ [m])
  else acc

/-- `menu_print_highest_score_movies`: fold with `max_score = -1` and an
empty tie list; an empty final tie list is reported as "none found". -/
def highestScoreQuery (movies : List Movie) : Int × List Movie :=
  movies.foldl highestStep (-1, [])

/-- Loop body of `menu_print_score_list`: bump the bucket of a present score
in range 0..100, leave the counts unchanged otherwise. -/
def scoreStep (counts : Int → Nat) (m : Movie) : Int → Nat :=
  match m.score with
  | some s =>
    if 0 ≤ s ∧ s ≤ 100 then (fun j => if j = s then counts s + 1 else counts j) else counts
  | none => counts

/-- `menu_print_score_list`: the 101 printed `(scoreValue, count)` pairs for
score values 0..100. -/
def scoreHistogram (movies : List Movie) : List (Int × Nat) :=
  let counts := movies.foldl scoreStep (fun _ => 0)
  (List.range 101).map (fun (i : Nat) => ((i : Int), counts (i : Int)))

/-- Lexicographic order on the character lists standing for Python strings
(Python string comparison used by `list.sort(key=lambda m: m.title)`). -/
def lexLe : Str → Str → Bool
  | [], _ => true
  | _ :: _, [] => false
  | a :: as, b :: bs => if a = b then lexLe as bs else decide (a < b)

/-- `menu_export_movies_without_relevant_score`: keep the records whose
`relevant_score` flag is false, report "none" (here `none`) when that list
is empty, else sort it by title ascending (Python `list.sort` is stable and
`mergeSort` matches its result on the title key). -/
def exportCandidates (movies : List Movie) : Option (List Movie) :=
  let sel := movies.filter (fun m => !(relevant_score m).1)
  if sel.isEmpty then none
  else some (sel.mergeSort (fun a b => lexLe a.title b.title))

/-! ## Lemmas about `Py.strip` -/

theorem Py.strip_decomp (l : Str) :
    l.dropWhile Char.isWhitespace =
      Py.strip l ++ ((l.dropWhile Char.isWhitespace).reverse.takeWhile Char.isWhitespace).reverse := by
  conv_lhs => rw [← List.reverse_reverse (l.dropWhile Char.isWhitespace),
    ← List.takeWhile_append_dropWhile Char.isWhitespace (l.dropWhile Char.isWhitespace).reverse]
  rw [List.reverse_append]
  rfl

theorem dropWhile_head_false (p : Char → Bool) :
    ∀ (l : Str) (c : Char) (t : Str), l.dropWhile p = c :: t → p c = false := by
  intro l
  induction l with
  | nil => intro c t h; simp at h
  | cons a as ih =>
    intro c t h
    rw [List.dropWhile_cons] at h
    by_cases hpa : p a = true
    · rw [if_pos hpa] at h
      exact ih c t h
    · rw [if_neg hpa] at h
      injection h with h1 h2
      subst h1
      simpa using hpa

theorem Py.strip_head_not_ws (l : Str) (c : Char) (t : Str) (h : Py.strip l = c :: t) :
    Char.isWhitespace c = false := by
  have hd := Py.strip_decomp l
  rw [h] at hd
  exact dropWhile_head_false Char.isWhitespace l c _ hd

theorem Py.strip_reverse (l : Str) :
    (Py.strip l).reverse = (l.dropWhile Char.isWhitespace).reverse.dropWhile Char.isWhitespace :=
  List.reverse_reverse _

theorem Py.strip_last_not_ws (l : Str) (c : Char) (t : Str)
    (h : (Py.strip l).reverse = c :: t) : Char.isWhitespace c = false := by
  rw [Py.strip_reverse] at h
  exact dropWhile_head_false Char.isWhitespace _ c t h

theorem Py.strip_idem (l : Str) : Py.strip (Py.strip l) = Py.strip l := by
  cases hr : Py.strip l with
  | nil => rfl
  | cons c t =>
    have hc : Char.isWhitespace c = false := Py.strip_head_not_ws l c t hr
    have hdrop : (c :: t).dropWhile Char.isWhitespace = c :: t := by
      rw [List.dropWhile_cons, if_neg (by simp [hc])]
    show (((c :: t).dropWhile Char.isWhitespace).reverse.dropWhile Char.isWhitespace).reverse = c :: t
    rw [hdrop]
    cases hrev : (c :: t).reverse with
    | nil => simp at hrev
    | cons d u =>
      have hd : Char.isWhitespace d = false := by
        apply Py.strip_last_not_ws l d u
        rw [hr, hrev]
      rw [List.dropWhile_cons, if_neg (by simp [hd]), ← hrev, List.reverse_reverse]

/-! ## Lemmas about `relevant_score` -/

theorem relevant_score_true_iff (m : Movie) :
    (relevant_score m).1 = true ↔ ∃ s c, m.score = some s ∧ m.count = some c ∧ 100 ≤ c := by
  rcases hs : m.score with _ | s
  · simp [relevant_score, hs]
  · rcases hc : m.count with _ | c
    · simp [relevant_score, hs, hc]
    · simp only [relevant_score, hs, hc]
      by_cases hlt : c < 100
      · rw [if_pos hlt]
        constructor
        · intro h
          simp at h
        · rintro ⟨s2, c2, -, hc2, hge⟩
          injection hc2 with h3
          omega
      · rw [if_neg hlt]
        exact ⟨fun _ => ⟨s, c, rfl, rfl, by omega⟩, fun _ => rfl⟩

/-- Claim C1: `relevant_score()` returns `(True, score)` exactly when both the
score and the vote count are present and the count is at least 100, and
`(False, 0)` in every other case. -/
theorem relevant_score_correct (m : Movie) :
    (∀ s c, m.score = some s → m.count = some c → 100 ≤ c → relevant_score m = (true, s))
  ∧ ((m.score = none ∨ m.count = none ∨ ∃ c, m.count = some c ∧ c < 100) →
      relevant_score m = (false, 0))
  ∧ (∀ s, relevant_score m = (true, s) →
      m.score = some s ∧ ∃ c, m.count = some c ∧ 100 ≤ c) := by
  refine ⟨?_, ?_, ?_⟩
  · intro s c hs hc hge
    simp only [relevant_score, hs, hc]
    rw [if_neg (by omega)]
  · intro h
    rcases hs : m.score with _ | s
    · simp [relevant_score, hs]
    · rcases hc : m.count with _ | c
      · simp [relevant_score, hs, hc]
      · rcases h with h | h | ⟨c2, hc2, hlt⟩
        · rw [hs] at h
          exact absurd h (by simp)
        · rw [hc] at h
          exact absurd h (by simp)
        · rw [hc] at hc2
          injection hc2 with h2
          subst h2
          simp only [relevant_score, hs, hc]
          rw [if_pos hlt]
  · intro s h
    rcases hs : m.score with _ | s0
    · simp only [relevant_score, hs] at h
      simp at h
    · rcases hc : m.count with _ | c
      · simp only [relevant_score, hs, hc] at h
        simp at h
      · simp only [relevant_score, hs, hc] at h
        split at h
        · simp at h
        · next hnot =>
          have h2 : s0 = s := congrArg Prod.snd h
          subst h2
          exact ⟨rfl, c, rfl, by omega⟩

/-- Witness for C1 at the concrete values of the claim: score 85 with 150
votes is relevant with value 85; 50 votes, or an absent score, is not. -/
theorem relevant_score_correct_witness :
    relevant_score
      { rt_link := "m/a".data, title := "A".data, rating := pgRating,
        genre := Genre.comedy, score := some 85, count := some 150 } = (true, 85)
  ∧ relevant_score
      { rt_link := "m/a".data, title := "A".data, rating := pgRating,
        genre := Genre.comedy, score := some 85, count := some 50 } = (false, 0)
  ∧ relevant_score
      { rt_link := "m/a".data, title := "A".data, rating := pgRating,
        genre := Genre.comedy, score := none, count := some 150 } = (false, 0) := by
  refine ⟨?_, ?_, ?_⟩
  · exact (relevant_score_correct _).1 85 150 rfl rfl (by omega)
  · exact (relevant_score_correct _).2.1 (Or.inr (Or.inr ⟨50, rfl, by omega⟩))
  · exact (relevant_score_correct _).2.1 (Or.inl rfl)

/-! ## C6: Horror.is_scary -/

theorem is_scary_eq (m : Movie) : is_scary m = ratingLt pgRating m.rating := rfl

/-- Claim C6: for a Horror record whose rating is one of the six cached
ratings, `is_scary()` is true exactly when the rating is strictly above PG
in the fixed order NR, G, PG, PG-13, R, NC17, i.e. exactly for PG-13, R
and NC17. -/
theorem is_scary_iff (m : Movie) (_hg : m.genre = Genre.horror)
    (hr : m.rating = nrRating ∨ m.rating = gRating ∨ m.rating = pgRating ∨
      m.rating = pg13Rating ∨ m.rating = rRating ∨ m.rating = nc17Rating) :
    (is_scary m = true ↔
      (m.rating = pg13Rating ∨ m.rating = rRating ∨ m.rating = nc17Rating)) := by
  rw [is_scary_eq]
  rcases hr with h | h | h | h | h | h <;> rw [h] <;> decide

def horrorR : Movie :=
  { rt_link := "m/h1".data, title := "H1".data, rating := rRating, genre := Genre.horror }

def horrorPG : Movie :=
  { rt_link := "m/h2".data, title := "H2".data, rating := pgRating, genre := Genre.horror }

/-- Witness for C6: a Horror record rated R is scary, one rated PG is not. -/
theorem is_scary_iff_witness : is_scary horrorR = true ∧ is_scary horrorPG = false := by
  constructor
  · exact (is_scary_iff horrorR rfl (by right; right; right; right; left; rfl)).mpr
      (Or.inr (Or.inl rfl))
  · have h2 := is_scary_iff horrorPG rfl (by right; right; left; rfl)
    cases hb : is_scary horrorPG
    · rfl
    · exact absurd (h2.mp hb) (by decide)

/-! ## C7: record construction invariants -/

/-- Claim C7: construction succeeds exactly for a non-empty `rt_link`, a
non-empty `title` and a present rating, and every constructed record has a
non-empty `rt_link` and `title` and a non-negative length, with a negative
length input coerced to 0 (records are never mutated afterwards: the model
has no mutating operation on `Movie`). -/
theorem makeMovie_invariants (rt ti : Str) (rating : Option MovieRating) (g : Genre)
    (ds : List Person) (rd sd : Option PyDate) (len : Int) (co : Option Str)
    (sc ct : Option Int) :
    ((makeMovie rt ti rating g ds rd sd len co sc ct).isOk = true ↔
      (rt ≠ [] ∧ ti ≠ [] ∧ rating.isSome = true))
  ∧ (∀ m, makeMovie rt ti rating g ds rd sd len co sc ct = Except.ok m →
      m.rt_link ≠ [] ∧ m.title ≠ [] ∧ 0 ≤ m.length ∧
      (0 ≤ len → m.length = len) ∧ (len < 0 → m.length = 0)) := by
  constructor
  · unfold makeMovie
    by_cases h1 : rt = []
    · rw [if_pos h1]
      simp [h1, Except.isOk, Except.toBool]
    · rw [if_neg h1]
      by_cases h2 : ti = []
      · rw [if_pos h2]
        simp [h1, h2, Except.isOk, Except.toBool]
      · rw [if_neg h2]
        cases rating with
        | none => simp [h1, h2, Except.isOk, Except.toBool]
        | some r => simp [h1, h2, Except.isOk, Except.toBool]
  · intro m hm
    unfold makeMovie at hm
    by_cases h1 : rt = []
    · rw [if_pos h1] at hm
      simp at hm
    · rw [if_neg h1] at hm
      by_cases h2 : ti = []
      · rw [if_pos h2] at hm
        simp at hm
      · rw [if_neg h2] at hm
        cases rating with
        | none => simp at hm
        | some r =>
          injection hm with h3
          subst h3
          refine ⟨h1, h2, ?_, ?_, ?_⟩
          · simp only
            split
            · omega
            · omega
          · intro hge
            simp only
            rw [if_neg (by omega)]
          · intro hlt
            simp only
            rw [if_pos hlt]

def movieX : Movie :=
  { rt_link := "m/x".data, title := "X".data, rating := pgRating,
    genre := Genre.drama, length := 0 }

/-- Witness for C7: a record built with length -5 is accepted and carries
length 0. -/
theorem makeMovie_invariants_witness :
    (makeMovie "m/x".data "X".data (some pgRating) Genre.drama [] none none
      (-5) none none none).isOk = true
  ∧ 0 ≤ movieX.length ∧ movieX.length = 0 := by
  have h := makeMovie_invariants "m/x".data "X".data (some pgRating) Genre.drama
    [] none none (-5) none none none
  have h2 := h.2 movieX rfl
  exact ⟨h.1.mpr ⟨by simp, by simp, rfl⟩, h2.2.2.1, h2.2.2.2.2 (by omega)⟩

/-! ## C4: the person registry interns case-insensitively -/

theorem findKey_append_of_none {α : Type} (key : Str) (l1 l2 : List (Str × α))
    (h : findKey key l1 = none) : findKey key (l1 ++ l2) = findKey key l2 := by
  induction l1 with
  | nil => simp
  | cons kv rest ih =>
    obtain ⟨k, v⟩ := kv
    by_cases hk : k = key
    · simp only [findKey, if_pos hk] at h
      simp at h
    · simp only [findKey, if_neg hk] at h
      simpa only [List.cons_append, findKey, if_neg hk] using ih h

theorem Py.lower_eq_nil_iff (l : Str) : Py.lower l = [] ↔ l = [] := by
  cases l <;> simp [Py.lower]

/-- Claim C4: two `get_person` calls whose arguments agree after trimming
and lowercasing return the same `Person` value with the registry unchanged
by the second call; the registry grows by at most one entry over the two
calls, and a newly created person stores the trimmed first-seen casing and
grows the registry by exactly one. -/
theorem get_person_idempotent (a b : Str) (reg : PersonReg)
    (ha : Py.strip a ≠ [])
    (hab : Py.lower (Py.strip a) = Py.lower (Py.strip b)) :
    ∃ p reg2, get_person a reg = Except.ok (p, reg2) ∧
      get_person b reg2 = Except.ok (p, reg2) ∧
      get_person_count reg2 ≤ get_person_count reg + 1 ∧
      (findKey (Py.lower (Py.strip a)) reg = none →
        p.fullname = Py.strip a ∧ get_person_count reg2 = get_person_count reg + 1) := by
  have hb : Py.strip b ≠ [] := by
    intro hnil
    rw [hnil] at hab
    rw [show Py.lower ([] : Str) = [] from rfl] at hab
    exact ha ((Py.lower_eq_nil_iff (Py.strip a)).mp hab)
  rcases hfind : findKey (Py.lower (Py.strip a)) reg with _ | p
  · refine ⟨⟨Py.strip a⟩, reg ++ [(Py.lower (Py.strip a), ⟨Py.strip a⟩)], ?_, ?_, ?_, ?_⟩
    · simp only [get_person, if_neg ha, hfind]
    · have hfind2 : findKey (Py.lower (Py.strip b))
          (reg ++ [(Py.lower (Py.strip a), ⟨Py.strip a⟩)]) = some ⟨Py.strip a⟩ := by
        rw [← hab, findKey_append_of_none _ _ _ hfind]
        simp [findKey]
      simp only [get_person, if_neg hb, hfind2]
    · simp [get_person_count]
    · intro _
      simp [get_person_count]
  · refine ⟨p, reg, ?_, ?_, ?_, ?_⟩
    · simp only [get_person, if_neg ha, hfind]
    · have hfind2 : findKey (Py.lower (Py.strip b)) reg = some p := by rw [← hab, hfind]
      simp only [get_person, if_neg hb, hfind2]
    · simp [get_person_count]
    · intro hnone
      simp at hnone

/-- Witness for C4 at the concrete names of the claim: interning
"Matt Groening" and then "MATT GROENING" into an empty registry yields the
same person and a registry of size one. -/
theorem get_person_idempotent_witness :
    ∃ p reg2, get_person "Matt Groening".data [] = Except.ok (p, reg2) ∧
      get_person "MATT GROENING".data reg2 = Except.ok (p, reg2) ∧
      get_person_count reg2 ≤ get_person_count [] + 1 ∧
      (findKey (Py.lower (Py.strip "Matt Groening".data)) ([] : PersonReg) = none →
        p.fullname = Py.strip "Matt Groening".data ∧
        get_person_count reg2 = get_person_count [] + 1) :=
  get_person_idempotent "Matt Groening".data "MATT GROENING".data []
    (by decide) (by decide)

/-! ## C5: the rating registry is a fixed flyweight -/

theorem findKey_ratings_none (key : Str) (h : key ∉ ratingOrder) :
    findKey key ratingInstances = none := by
  simp only [ratingOrder, List.mem_cons, List.not_mem_nil, or_false] at h
  push_neg at h
  obtain ⟨h1, h2, h3, h4, h5, h6⟩ := h
  simp [ratingInstances, findKey, Ne.symm h1, Ne.symm h2, Ne.symm h3, Ne.symm h4,
    Ne.symm h5, Ne.symm h6]

/-- Claim C5: for each of the six codes, `get_rating` returns the one cached
instance carrying that code for every casing/whitespace variant of the code,
and it fails for every string whose trimmed uppercased form is not one of
the six codes. -/
theorem get_rating_flyweight (v : Str) :
    (∀ code, code ∈ ratingOrder → Py.upper (Py.strip v) = code →
      ∃ r, get_rating v = Except.ok r ∧ r.code = code ∧
        ∀ w, Py.upper (Py.strip w) = Py.upper (Py.strip v) → get_rating w = Except.ok r)
  ∧ (Py.upper (Py.strip v) ∉ ratingOrder → ∃ e, get_rating v = Except.error e) := by
  constructor
  · intro code hmem hnorm
    have key : ∀ w, Py.upper (Py.strip w) = code →
        get_rating w = (match findKey code ratingInstances with
          | some r => Except.ok r
          | none => Except.error ("Unknown rating code: ".data ++ code)) := by
      intro w hw
      simp only [get_rating, hw]
    simp only [ratingOrder, List.mem_cons, List.not_mem_nil, or_false] at hmem
    rcases hmem with h | h | h | h | h | h <;> subst h <;>
      exact ⟨_, key v hnorm, rfl, fun w hw => key w (hw.trans hnorm)⟩
  · intro hnot
    exact ⟨"Unknown rating code: ".data ++ Py.upper (Py.strip v), by
      simp only [get_rating, findKey_ratings_none _ hnot]⟩

/-- Witness for C5: the variant " pg " resolves to the cached PG instance,
and every string normalizing like it resolves to that same instance. -/
theorem get_rating_flyweight_witness :
    ∃ r, get_rating " pg ".data = Except.ok r ∧ r.code = "PG".data ∧
      ∀ w, Py.upper (Py.strip w) = Py.upper (Py.strip " pg ".data) →
        get_rating w = Except.ok r :=
  (get_rating_flyweight " pg ".data).1 "PG".data (by decide) (by decide)

/-! ## C3: the highest-score query and its -1 sentinel -/

def negScoreMovie : Movie :=
  { rt_link := "m/neg".data, title := "Bleak".data, rating := nrRating,
    genre := Genre.drama, score := some (-2), count := some 150 }

/-- Claim C3 (refuting instance): a record with audience score -2 backed by
150 votes has a relevant score, yet the highest-score fold still ends with
an empty tie list (its accumulator starts at the sentinel -1), so the menu
reports that no movie with a relevant score was found. -/
theorem highest_score_misses_negative :
    (relevant_score negScoreMovie).1 = true
  ∧ relevant_score negScoreMovie = (true, -2)
  ∧ highestScoreQuery [negScoreMovie] = (-1, []) :=
  ⟨rfl, rfl, rfl⟩

/-! ## Parsing the directors field never fails -/

theorem get_person_ok (name : Str) (reg : PersonReg) (h : Py.strip name ≠ []) :
    ∃ p reg2, get_person name reg = Except.ok (p, reg2) := by
  rcases hfind : findKey (Py.lower (Py.strip name)) reg with _ | p
  · exact ⟨⟨Py.strip name⟩, reg ++ [(Py.lower (Py.strip name), ⟨Py.strip name⟩)],
      by simp only [get_person, if_neg h, hfind]⟩
  · exact ⟨p, reg, by simp only [get_person, if_neg h, hfind]⟩

theorem internDirectors_ok (names : List Str) (reg : PersonReg)
    (h : ∀ n ∈ names, Py.strip n ≠ []) :
    ∃ ps reg2, internDirectors names reg = (Except.ok ps, reg2) := by
  induction names generalizing reg with
  | nil => exact ⟨[], reg, rfl⟩
  | cons n rest ih =>
    obtain ⟨p, reg1, hp⟩ := get_person_ok n reg (h n (by simp))
    obtain ⟨ps, reg2, hrest⟩ := ih reg1 (fun x hx => h x (by simp [hx]))
    exact ⟨p :: ps, reg2, by simp only [internDirectors, hp, hrest]⟩

theorem parse_directors_ok (v : Str) (reg : PersonReg) :
    ∃ ps reg2, parse_directors v reg = (Except.ok ps, reg2) := by
  unfold parse_directors
  by_cases hv : Py.strip v = []
  · rw [if_pos hv]
    exact ⟨[], reg, rfl⟩
  · rw [if_neg hv]
    apply internDirectors_ok
    intro n hn
    rw [List.mem_filter] at hn
    obtain ⟨hmem, hne⟩ := hn
    rw [List.mem_map] at hmem
    obtain ⟨part, -, hpart⟩ := hmem
    subst hpart
    rw [Py.strip_idem]
    simpa [List.isEmpty_iff] using hne

/-! ## C2: which rows can fail -/

theorem makeMovie_ok (rt ti : Str) (r : MovieRating) (g : Genre) (ds : List Person)
    (rd sd : Option PyDate) (len : Int) (co : Option Str) (sc ct : Option Int)
    (h1 : rt ≠ []) (h2 : ti ≠ []) :
    ∃ m, makeMovie rt ti (some r) g ds rd sd len co sc ct = Except.ok m :=
  ⟨_, by unfold makeMovie; rw [if_neg h1, if_neg h2]⟩

/-- Claim C2: `create_movie` succeeds exactly when the four required fields
are non-empty after trimming, the rating code is one of the six and the
genre text is in the genre table; the seven optional columns can never fail
a row. -/
theorem create_movie_failure_modes (info : Row) (reg : PersonReg) :
    (create_movie info reg).1.isOk = true ↔
      (Py.strip (info.rotten_tomatoes_link.getD []) ≠ [] ∧
       Py.strip (info.movie_title.getD []) ≠ [] ∧
       Py.strip (info.content_rating.getD []) ≠ [] ∧
       Py.strip (info.genre.getD []) ≠ [] ∧
       (findKey (Py.upper (Py.strip (info.content_rating.getD []))) ratingInstances).isSome
         = true ∧
       (findKey (Py.upper (Py.strip (info.genre.getD []))) genreTable).isSome = true) := by
  unfold create_movie
  by_cases h1 : Py.strip (info.rotten_tomatoes_link.getD []) = []
  · rw [if_pos h1]
    simp [h1, Except.isOk, Except.toBool]
  · rw [if_neg h1]
    by_cases h2 : Py.strip (info.movie_title.getD []) = []
    · rw [if_pos h2]
      simp [h2, Except.isOk, Except.toBool]
    · rw [if_neg h2]
      by_cases h3 : Py.strip (info.content_rating.getD []) = []
      · rw [if_pos h3]
        simp [h3, Except.isOk, Except.toBool]
      · rw [if_neg h3]
        by_cases h4 : Py.strip (info.genre.getD []) = []
        · rw [if_pos h4]
          simp [h4, Except.isOk, Except.toBool]
        · rw [if_neg h4]
          rcases hr : findKey (Py.upper (Py.strip (info.content_rating.getD [])))
              ratingInstances with _ | r
          · simp only [get_rating, Py.strip_idem, hr]
            simp [hr, Except.isOk, Except.toBool]
          · simp only [get_rating, Py.strip_idem, hr]
            obtain ⟨ps, reg2, hpd⟩ := parse_directors_ok (info.directors.getD []) reg
            rw [hpd]
            rcases hg : findKey (Py.upper (Py.strip (info.genre.getD []))) genreTable
              with _ | g
            · simp [hg, hr, h1, h2, h3, h4, Except.isOk, Except.toBool]
            · obtain ⟨m, hm⟩ := makeMovie_ok (Py.strip (info.rotten_tomatoes_link.getD []))
                (Py.strip (info.movie_title.getD [])) r g ps
                (parse_date (info.original_release_date.getD []))
                (parse_date (info.streaming_release_date.getD []))
                ((parse_int (info.runtime.getD [])).getD 0)
                (if Py.strip (info.production_company.getD []) = [] then none
                  else some (Py.strip (info.production_company.getD [])))
                (parse_int (info.audience_rating.getD []))
                (parse_int (info.audience_count.getD [])) h1 h2
              simp only [hg, hm]
              simp [hr, hg, h1, h2, h3, h4, Except.isOk, Except.toBool]

def goodRow : Row :=
  { rotten_tomatoes_link := some "m/simpsons".data,
    movie_title := some "The Simpsons Movie".data,
    content_rating := some "PG-13".data,
    genre := some "COMEDY".data,
    directors := some "Matt Groening, David Silverman".data,
    audience_rating := some "85".data,
    audience_count := some "150".data }

/-- Witness for C2: a row with the four required fields valid produces a
record. -/
theorem create_movie_failure_modes_witness :
    (create_movie goodRow []).1.isOk = true :=
  (create_movie_failure_modes goodRow []).mpr
    ⟨by decide, by decide, by decide, by decide, by decide, by decide⟩

/-! ## C10: a failing row still grows the person registry -/

/-- Claim C10: when the four required fields are present and the rating is
known but the genre is not, `create_movie` fails, and the registry it
returns is exactly the registry produced by interning the directors field,
so every person created from that row stays cached and counted. -/
theorem create_movie_keeps_persons (info : Row) (reg : PersonReg)
    (h1 : Py.strip (info.rotten_tomatoes_link.getD []) ≠ [])
    (h2 : Py.strip (info.movie_title.getD []) ≠ [])
    (h3 : Py.strip (info.content_rating.getD []) ≠ [])
    (h4 : Py.strip (info.genre.getD []) ≠ [])
    (h5 : (findKey (Py.upper (Py.strip (info.content_rating.getD []))) ratingInstances).isSome
      = true)
    (h6 : findKey (Py.upper (Py.strip (info.genre.getD []))) genreTable = none) :
    ∃ e, create_movie info reg =
      (Except.error e, (parse_directors (info.directors.getD []) reg).2) := by
  unfold create_movie
  rw [if_neg h1, if_neg h2, if_neg h3, if_neg h4]
  rcases hr : findKey (Py.upper (Py.strip (info.content_rating.getD [])))
      ratingInstances with _ | r
  · rw [hr] at h5
    simp at h5
  · simp only [get_rating, Py.strip_idem, hr]
    obtain ⟨ps, reg2, hpd⟩ := parse_directors_ok (info.directors.getD []) reg
    rw [hpd]
    simp only [h6]
    exact ⟨_, rfl⟩

def horrorIshRow : Row :=
  { rotten_tomatoes_link := some "m/simpsons".data,
    movie_title := some "The Simpsons Movie".data,
    content_rating := some "PG-13".data,
    genre := some "HORROR-ish".data,
    directors := some "Matt Groening".data }

/-- Witness for C10: the unknown-genre row fails while its director is kept
in the registry, whose count is 1 afterwards. -/
theorem create_movie_keeps_persons_witness :
    (create_movie horrorIshRow []).1.isOk = false
  ∧ get_person_count (create_movie horrorIshRow []).2 = 1 := by
  obtain ⟨e, he⟩ := create_movie_keeps_persons horrorIshRow []
    (by decide) (by decide) (by decide) (by decide) (by decide) (by decide)
  rw [he]
  exact ⟨rfl, rfl⟩

/-! ## C8: the 0..100 score histogram -/

theorem scoreFold_eval (movies : List Movie) (f : Int → Nat) (k : Int) :
    (movies.foldl scoreStep f) k =
      f k + (movies.filter (fun m => decide (m.score = some k ∧ 0 ≤ k ∧ k ≤ 100))).length := by
  induction movies generalizing f with
  | nil => simp
  | cons m ms ih =>
    rw [List.foldl_cons, ih (scoreStep f m), List.filter_cons]
    rcases hs : m.score with _ | s
    · have hstep : scoreStep f m = f := by simp [scoreStep, hs]
      rw [hstep, if_neg (by simp)]
    · by_cases hin : 0 ≤ s ∧ s ≤ 100
      · by_cases hk : k = s
        · subst hk
          have hstep : scoreStep f m k = f k + 1 := by simp [scoreStep, hs, hin]
          rw [hstep, if_pos (by simp [hin.1, hin.2]), List.length_cons]
          omega
        · have hstep : scoreStep f m k = f k := by
            simp only [scoreStep, hs, if_pos hin]
            rw [if_neg hk]
          have hcond : ¬ (s = k ∧ 0 ≤ k ∧ k ≤ 100) := by
            rintro ⟨hq, -, -⟩
            exact hk hq.symm
          rw [hstep, if_neg (by simpa using hcond)]
      · have hstep : scoreStep f m = f := by simp [scoreStep, hs, hin]
        have hcond : ¬ (s = k ∧ 0 ≤ k ∧ k ≤ 100) := by
          rintro ⟨hq, hge, hle⟩
          exact hin ⟨by omega, by omega⟩
        rw [hstep, if_neg (by simpa using hcond)]

theorem scoreFold_eval_in_range (movies : List Movie) (k : Int)
    (h0 : 0 ≤ k) (h1 : k ≤ 100) :
    (movies.foldl scoreStep (fun _ => 0)) k =
      (movies.filter (fun m => decide (m.score = some k))).length := by
  rw [scoreFold_eval]
  rw [Nat.zero_add]
  congr 1
  apply List.filter_congr
  intro m _
  simp [h0, h1]

theorem sum_map_add {α : Type} (l : List α) (f g : α → Nat) :
    (l.map (fun x => f x + g x)).sum = (l.map f).sum + (l.map g).sum := by
  induction l with
  | nil => rfl
  | cons a t ih =>
    simp only [List.map_cons, List.sum_cons, ih]
    omega

theorem range_indicator (n k : Nat) :
    ((List.range n).map (fun i => if i = k then (1 : Nat) else 0)).sum
      = if k < n then 1 else 0 := by
  induction n with
  | zero => simp
  | succ n ih =>
    rw [List.range_succ, List.map_append, List.sum_append, ih]
    by_cases h : k < n
    · rw [if_pos h, if_pos (by omega)]
      simp [show ¬ n = k by omega]
    · by_cases h2 : k = n
      · subst h2
        simp [h]
      · rw [if_neg h, if_neg (by omega)]
        simp [show ¬ n = k from fun hh => h2 hh.symm]

theorem movie_indicator (m : Movie) :
    ((List.range 101).map
      (fun (i : Nat) => if m.score = some (i : Int) then (1 : Nat) else 0)).sum
      = if (match m.score with
            | some s => decide (0 ≤ s ∧ s ≤ 100)
            | none => false) = true then 1 else 0 := by
  rcases hs : m.score with _ | s
  · simp [hs]
  · by_cases hin : 0 ≤ s ∧ s ≤ 100
    · have hpt : ∀ i : Nat, (if some s = some (i : Int) then (1 : Nat) else 0)
          = (if i = s.toNat then 1 else 0) := by
        intro i
        have hiff : (some s = some (i : Int)) ↔ (i = s.toNat) := by
          simp only [Option.some.injEq]
          omega
        rw [if_congr hiff rfl rfl]
      rw [List.map_congr_left (fun i _ => hpt i), range_indicator]
      rw [if_pos (show s.toNat < 101 by omega)]
      simp [hin]
    · have hpt : ∀ i ∈ List.range 101,
          (if some s = some (i : Int) then (1 : Nat) else 0) = 0 := by
        intro i hi
        rw [List.mem_range] at hi
        rw [if_neg]
        intro h
        injection h with h2
        exact hin ⟨by omega, by omega⟩
      rw [List.map_congr_left hpt]
      simp [hin]

theorem sum_over_buckets (movies : List Movie) :
    ((List.range 101).map
      (fun (i : Nat) =>
        (movies.filter (fun m => decide (m.score = some (i : Int)))).length)).sum
      = (movies.filter (fun m => match m.score with
          | some s => decide (0 ≤ s ∧ s ≤ 100)
          | none => false)).length := by
  induction movies with
  | nil => simp
  | cons m ms ih =>
    have hstep : ∀ i : Nat,
        ((m :: ms).filter (fun mm => decide (mm.score = some (i : Int)))).length
          = (ms.filter (fun mm => decide (mm.score = some (i : Int)))).length
            + (if m.score = some (i : Int) then 1 else 0) := by
      intro i
      rw [List.filter_cons]
      by_cases h : m.score = some (i : Int)
      · simp [h]
      · simp [h]
    rw [List.map_congr_left (fun i _ => hstep i), sum_map_add, ih, movie_indicator m,
      List.filter_cons]
    by_cases hc : (match m.score with
        | some s => decide (0 ≤ s ∧ s ≤ 100)
        | none => false) = true
    · rw [if_pos hc, if_pos hc, List.length_cons]
    · rw [if_neg hc, if_neg hc, Nat.add_zero]

/-- Claim C8: the score histogram has exactly 101 buckets for the values
0..100; bucket k counts exactly the records whose score is present and
equal to k; and the bucket counts sum to the number of records with a
present in-range score, so absent and out-of-range scores are excluded. -/
theorem score_histogram_correct (movies : List Movie) :
    (scoreHistogram movies).length = 101
  ∧ (∀ k : Nat, k < 101 →
      (scoreHistogram movies)[k]? =
        some ((k : Int),
          (movies.filter (fun m => decide (m.score = some (k : Int)))).length))
  ∧ ((scoreHistogram movies).map Prod.snd).sum =
      (movies.filter (fun m => match m.score with
        | some s => decide (0 ≤ s ∧ s ≤ 100)
        | none => false)).length := by
  refine ⟨by simp [scoreHistogram], ?_, ?_⟩
  · intro k hk
    simp only [scoreHistogram, List.getElem?_map, List.getElem?_range hk, Option.map_some']
    rw [scoreFold_eval_in_range movies (k : Int) (by omega) (by omega)]
  · have hb : ∀ (i : Nat), i ∈ List.range 101 →
        ((movies.foldl scoreStep (fun _ => 0)) (i : Int))
          = (movies.filter (fun m => decide (m.score = some (i : Int)))).length := by
      intro i hi
      rw [List.mem_range] at hi
      exact scoreFold_eval_in_range movies (i : Int) (by omega) (by omega)
    calc ((scoreHistogram movies).map Prod.snd).sum
        = ((List.range 101).map (fun (i : Nat) =>
            (movies.foldl scoreStep (fun _ => 0)) (i : Int))).sum := by
          simp only [scoreHistogram, List.map_map]
          exact List.map_congr_left (fun i _ => rfl) ▸ rfl
      _ = ((List.range 101).map (fun (i : Nat) =>
            (movies.filter (fun m => decide (m.score = some (i : Int)))).length)).sum := by
          rw [List.map_congr_left hb]
      _ = _ := sum_over_buckets movies

def histMovies : List Movie :=
  [{ rt_link := "m/a".data, title := "A".data, rating := gRating, genre := Genre.drama,
     score := some 0 },
   { rt_link := "m/b".data, title := "B".data, rating := gRating, genre := Genre.drama,
     score := some 100 },
   { rt_link := "m/c".data, title := "C".data, rating := gRating, genre := Genre.drama,
     score := none },
   { rt_link := "m/d".data, title := "D".data, rating := gRating, genre := Genre.drama,
     score := some 150 }]

/-- Witness for C8 at the concrete collection of the spec: scores 0, 100,
absent and 150 give bucket 0 = 1, bucket 100 = 1 and a total of 2. -/
theorem score_histogram_correct_witness :
    (scoreHistogram histMovies).length = 101
  ∧ (scoreHistogram histMovies)[0]? = some ((0 : Int), 1)
  ∧ (scoreHistogram histMovies)[100]? = some ((100 : Int), 1)
  ∧ ((scoreHistogram histMovies).map Prod.snd).sum = 2 := by
  have h := score_histogram_correct histMovies
  exact ⟨h.1, (h.2.1 0 (by omega)).trans (by decide),
    (h.2.1 100 (by omega)).trans (by decide), (h.2.2).trans (by decide)⟩

/-! ## C9: export candidates -/

theorem lexLe_total : ∀ a b : Str, (lexLe a b || lexLe b a) = true := by
  intro a
  induction a with
  | nil => intro b; simp [lexLe]
  | cons x xs ih =>
    intro b
    cases b with
    | nil => simp [lexLe]
    | cons y ys =>
      by_cases hxy : x = y
      · subst hxy
        simp only [lexLe, if_pos rfl]
        exact ih ys
      · have hyx : ¬ y = x := fun h => hxy h.symm
        simp only [lexLe, if_neg hxy, if_neg hyx]
        rcases lt_trichotomy x y with h | h | h
        · rw [decide_eq_true h, Bool.true_or]
        · exact absurd h hxy
        · rw [decide_eq_true h, Bool.or_true]

theorem lexLe_trans :
    ∀ a b c : Str, lexLe a b = true → lexLe b c = true → lexLe a c = true := by
  intro a
  induction a with
  | nil => intro b c h1 h2; simp [lexLe]
  | cons x xs ih =>
    intro b c h1 h2
    cases b with
    | nil => simp [lexLe] at h1
    | cons y ys =>
      cases c with
      | nil => simp [lexLe] at h2
      | cons z zs =>
        by_cases hxy : x = y
        · subst hxy
          simp only [lexLe, if_pos rfl] at h1
          by_cases hyz : x = z
          · subst hyz
            simp only [lexLe, if_pos rfl] at h2 ⊢
            exact ih ys zs h1 h2
          · simp only [lexLe, if_neg hyz] at h2 ⊢
            exact h2
        · simp only [lexLe, if_neg hxy] at h1
          have hxylt : x < y := of_decide_eq_true h1
          by_cases hyz : y = z
          · subst hyz
            simp only [lexLe, if_neg hxy]
            exact decide_eq_true hxylt
          · simp only [lexLe, if_neg hyz] at h2
            have hyzlt : y < z := of_decide_eq_true h2
            have hxz : x < z := lt_trans hxylt hyzlt
            simp only [lexLe, if_neg (ne_of_lt hxz)]
            exact decide_eq_true hxz

theorem relevant_score_false_iff (m : Movie) :
    (relevant_score m).1 = false ↔
      (m.score = none ∨ m.count = none ∨ ∃ c, m.count = some c ∧ c < 100) := by
  rcases hs : m.score with _ | s
  · simp [relevant_score, hs]
  · rcases hc : m.count with _ | c
    · simp [relevant_score, hs, hc]
    · simp only [relevant_score, hs, hc]
      by_cases hlt : c < 100
      · rw [if_pos hlt]
        constructor
        · intro _
          exact Or.inr (Or.inr ⟨c, rfl, hlt⟩)
        · intro _
          rfl
      · rw [if_neg hlt]
        constructor
        · intro h
          simp at h
        · rintro (h | h | ⟨c2, hc2, hl⟩)
          · exact absurd h (by simp)
          · exact absurd h (by simp)
          · injection hc2 with hc3
            omega

/-- Claim C9: the export selection is reported as `none` exactly when every
record has a relevant score; otherwise it returns a permutation of the
records whose relevant-score flag is false (equivalently, absent score,
absent count, or count below 100), sorted by title ascending. -/
theorem export_candidates_correct (movies : List Movie) :
    (exportCandidates movies = none ↔ ∀ m ∈ movies, (relevant_score m).1 = true)
  ∧ (∀ l, exportCandidates movies = some l →
      List.Perm l (movies.filter (fun m => !(relevant_score m).1))
      ∧ List.Pairwise (fun a b => lexLe a.title b.title = true) l
      ∧ (∀ m, m ∈ l ↔ m ∈ movies ∧
          (m.score = none ∨ m.count = none ∨ ∃ c, m.count = some c ∧ c < 100))) := by
  constructor
  · unfold exportCandidates
    by_cases he : (movies.filter (fun m => !(relevant_score m).1)).isEmpty = true
    · rw [if_pos he]
      rw [List.isEmpty_iff, List.filter_eq_nil_iff] at he
      simp only [true_iff]
      intro m hm
      have h2 := he m hm
      simp only [Bool.not_eq_true'] at h2
      simpa using h2
    · rw [if_neg he]
      constructor
      · intro h
        exact absurd h (by simp)
      · intro hall
        exfalso
        apply he
        rw [List.isEmpty_iff, List.filter_eq_nil_iff]
        intro m hm
        rw [hall m hm]
        simp
  · intro l hl
    unfold exportCandidates at hl
    by_cases he : (movies.filter (fun m => !(relevant_score m).1)).isEmpty = true
    · rw [if_pos he] at hl
      exact absurd hl (by simp)
    · rw [if_neg he] at hl
      injection hl with hl2
      subst hl2
      refine ⟨List.mergeSort_perm _ _, ?_, ?_⟩
      · exact List.sorted_mergeSort
          (fun a b c hab hbc => lexLe_trans a.title b.title c.title hab hbc)
          (fun a b => lexLe_total a.title b.title) _
      · intro m
        rw [List.mem_mergeSort, List.mem_filter]
        constructor
        · rintro ⟨hm, hpred⟩
          simp only [Bool.not_eq_true'] at hpred
          exact ⟨hm, (relevant_score_false_iff m).mp hpred⟩
        · rintro ⟨hm, hcond⟩
          refine ⟨hm, ?_⟩
          simp only [Bool.not_eq_true']
          exact (relevant_score_false_iff m).mpr hcond

def exportM : Movie :=
  { rt_link := "m/e".data, title := "E".data, rating := gRating, genre := Genre.western,
    score := none, count := some 500 }

/-- Witness for C9: a single record with an absent score is selected,
trivially sorted, and characterized by the absence condition. -/
theorem export_candidates_correct_witness :
    List.Perm [exportM] ([exportM].filter (fun m => !(relevant_score m).1))
  ∧ List.Pairwise (fun a b : Movie => lexLe a.title b.title = true) [exportM]
  ∧ (exportM ∈ [exportM] ↔ exportM ∈ [exportM] ∧
      (exportM.score = none ∨ exportM.count = none ∨
        ∃ c, exportM.count = some c ∧ c < 100)) := by
  have h := (export_candidates_correct [exportM]).2 [exportM] (by
    unfold exportCandidates
    rw [if_neg (by decide)]
    rw [show [exportM].filter (fun m => !(relevant_score m).1) = [exportM] from by decide]
    rw [List.mergeSort_singleton])
  exact ⟨h.1, h.2.1, h.2.2 exportM⟩
